import Mathlib

/-!
Verification of the HealthBridge ingestion/analytics behavior.

The repository ships the React frontend (pages, API client, type
declarations and demo fixtures); the Django backend that implements the
analytics heuristics and the normalizer is not part of the sources here,
so those parts are modelled from the design document and marked as such
in their doc comments.  Everything else is translated directly from the
frontend sources.
-/

namespace HealthBridge

/-! ### Outbreak alerts

`Severity` and `AlertRec` translate the frontend `Alert` interface
(the surveillance dashboard page); `dummySurveillanceAlerts` embeds the
demo fixture list `dummySurveillanceData.alerts` verbatim, with decimal
literals written as rationals. -/

inductive Severity where
  | critical
  | warning
deriving DecidableEq, Repr

structure AlertRec where
  disease : String
  disease_id : String
  severity : Severity
  recent_cases : Nat
  baseline_avg : Rat
  increase_ratio : Option Rat
  message : String
deriving DecidableEq, Repr

def dummySurveillanceAlerts : List AlertRec :=
  [ { disease := "Dengue Fever", disease_id := "demo-dengue-fever",
      severity := .critical, recent_cases := 156, baseline_avg := 226/5,
      increase_ratio := some (345/100),
      message := "Dengue outbreak detected - 245% above normal levels" },
    { disease := "Influenza", disease_id := "demo-influenza",
      severity := .critical, recent_cases := 234, baseline_avg := 241/2,
      increase_ratio := some (194/100),
      message := "Seasonal flu surge - 94% above baseline" },
    { disease := "Acute Gastroenteritis", disease_id := "demo-gastro",
      severity := .warning, recent_cases := 89, baseline_avg := 623/10,
      increase_ratio := some (143/100),
      message := "Gastroenteritis cases elevated - 43% increase" },
    { disease := "Typhoid", disease_id := "demo-typhoid",
      severity := .warning, recent_cases := 34, baseline_avg := 241/10,
      increase_ratio := some (141/100),
      message := "Typhoid cases rising in eastern regions" },
    { disease := "Pneumonia", disease_id := "demo-pneumonia",
      severity := .warning, recent_cases := 67, baseline_avg := 97/2,
      increase_ratio := some (138/100),
      message := "Pneumonia cases above seasonal average" },
    { disease := "Malaria", disease_id := "demo-malaria",
      severity := .warning, recent_cases := 45, baseline_avg := 35,
      increase_ratio := some (129/100),
      message := "Malaria cases increasing post-monsoon" } ]

/-- Modelled from the spec: the outbreak-alert heuristic lives in the
Django backend (Analytics Aggregator), which is not among the sources;
per the design document the increase ratio is the recent case count
divided by the baseline average. -/
def increaseRatio (recent : Nat) (baseline : Rat) : Rat :=
  (recent : Rat) / baseline

/-- Modelled from the spec: severity policy of the backend heuristic —
critical when the ratio is at least 2, warning when it is at least 1.3,
no alert otherwise. -/
def alertSeverity (recent : Nat) (baseline : Rat) : Option Severity :=
  if 2 ≤ increaseRatio recent baseline then some .critical
  else if 13/10 ≤ increaseRatio recent baseline then some .warning
  else none

/-- The severity/ratio correspondence asserted by the claim, stated over
one alert record: critical exactly when the recomputed ratio is at least
2, warning exactly when it is in [1.3, 2). -/
def severityMatchesRatio (a : AlertRec) : Prop :=
  (a.severity = .critical ↔ 2 ≤ increaseRatio a.recent_cases a.baseline_avg) ∧
  (a.severity = .warning ↔
    13/10 ≤ increaseRatio a.recent_cases a.baseline_avg ∧
    increaseRatio a.recent_cases a.baseline_avg < 2)

/-! ### Age buckets

`ageGroupOptions` is the bucket list as it appears in the patient-list
filter dropdown (and as the keys of `AGE_COLORS` on the surveillance
page, apart from the fallback "Unknown" color). -/

def ageGroupOptions : List String :=
  ["0-17", "18-29", "30-44", "45-59", "60+"]

/-- Modelled from the spec: the age-bucket assignment is computed by the
backend Analytics Aggregator, which is not among the sources; the design
document fixes the five buckets with inclusive lower bounds. -/
def ageBucket (age : Nat) : String :=
  if age ≤ 17 then "0-17"
  else if age ≤ 29 then "18-29"
  else if age ≤ 44 then "30-44"
  else if age ≤ 59 then "45-59"
  else "60+"

/-! ### Batch processing

`BatchResult` translates the `ProcessBatchResponse` interface of the
frontend type declarations.  The batch endpoint itself is in the Django
backend, which is not among the sources, so row parsing is modelled from
the spec (and from the batch-format notes shown on the Upload page:
"CSV with headers: name, age, gender, diseases", diseases separated by
commas). -/

structure BatchResult where
  success : Bool
  processed_count : Nat
  failed_count : Nat
  errors : List String
deriving DecidableEq, Repr

/-- One raw row of a batch file: the cell values under the headers
name, age, gender, diseases. -/
structure RawRow where
  name : String
  age : String
  gender : String
  diseases : String
deriving DecidableEq, Repr

/-- A patient draft produced from one well-formed batch row. -/
structure PatientDraft where
  name : String
  age : Option Nat
  gender : String
  diseases : List String
deriving DecidableEq, Repr

/-- A row is malformed when it carries no patient name — the only field
the frontend `Patient` type requires. -/
def rowMalformed (r : RawRow) : Bool :=
  r.name = ""

/-- Modelled from the spec: per-row parsing of the batch endpoint (not
under the sources); a row without a name fails, otherwise it yields a
patient draft, with a non-numeric age dropped and diseases split on
commas. -/
def parseRow (r : RawRow) : Option PatientDraft :=
  if rowMalformed r then none
  else some { name := r.name, age := r.age.toNat?,
              gender := r.gender, diseases := r.diseases.splitOn "," }

/-- The error message recorded for a malformed row at index `i`. -/
def rowError (i : Nat) (_r : RawRow) : String :=
  "Row " ++ toString i ++ ": missing patient name"

/-- Modelled from the spec: the batch endpoint walks the rows starting
at index `i`, accumulating a processed count, a failed count and the
per-row errors instead of failing the whole batch on one bad row. -/
def processBatchAux : Nat → List RawRow → BatchResult
  | _, [] => ⟨true, 0, 0, []⟩
  | i, r :: rest =>
    let acc := processBatchAux (i + 1) rest
    match parseRow r with
    | some _ => { acc with processed_count := acc.processed_count + 1 }
    | none =>
      { acc with
        failed_count := acc.failed_count + 1
        errors := rowError i r :: acc.errors }

def processBatch (rows : List RawRow) : BatchResult :=
  processBatchAux 0 rows

theorem processBatchAux_failed (i : Nat) (rows : List RawRow) :
    (processBatchAux i rows).failed_count = (rows.filter rowMalformed).length := by
  induction rows generalizing i with
  | nil => rfl
  | cons r rest ih =>
    by_cases h : rowMalformed r
    · simp [processBatchAux, parseRow, h, List.filter, ih]
    · simp [processBatchAux, parseRow, h, List.filter, ih]

theorem processBatchAux_processed (i : Nat) (rows : List RawRow) :
    (processBatchAux i rows).processed_count =
      (rows.filter (fun r => ! rowMalformed r)).length := by
  induction rows generalizing i with
  | nil => rfl
  | cons r rest ih =>
    by_cases h : rowMalformed r
    · simp [processBatchAux, parseRow, h, List.filter, ih]
    · simp [processBatchAux, parseRow, h, List.filter, ih]

theorem processBatchAux_mem_errors (i : Nat) (rows : List RawRow) (j : Nat)
    (hj : j < rows.length) (hm : rowMalformed (rows.get ⟨j, hj⟩) = true) :
    rowError (i + j) (rows.get ⟨j, hj⟩) ∈ (processBatchAux i rows).errors := by
  induction rows generalizing i j with
  | nil => exact absurd hj (by simp)
  | cons r rest ih =>
    cases j with
    | zero =>
      simp only [List.get] at hm ⊢
      simp [processBatchAux, parseRow, hm]
    | succ j =>
      simp only [List.get] at hm ⊢
      have htail := ih (i + 1) j (Nat.lt_of_succ_lt_succ hj) hm
      have harith : i + 1 + j = i + (j + 1) := by omega
      rw [harith] at htail
      by_cases h : rowMalformed r
      · simp only [processBatchAux, parseRow, h, if_pos]
        exact List.mem_cons_of_mem _ htail
      · simpa [processBatchAux, parseRow, h] using htail

end HealthBridge

namespace HealthBridge

/-- C1: the claim as stated is false of the sources: it asserts that every
alert record carried by the system, demo fixtures included, has severity
critical exactly when recent/baseline is at least 2 and warning exactly
when that ratio is in [1.3, 2); the Influenza demo fixture has ratio
234 / 120.5 which is below 2 yet is marked critical. -/
theorem demo_alert_violates_severity_ratio :
    ¬ (∀ a ∈ dummySurveillanceAlerts, severityMatchesRatio a) := by
  intro h
  have hmem : (dummySurveillanceAlerts.get ⟨1, by decide⟩) ∈ dummySurveillanceAlerts :=
    List.get_mem _ _ _
  have h2 := ((h _ hmem).1).mp rfl
  have : increaseRatio 234 (241/2) < 2 := by
    unfold increaseRatio
    norm_num
  simp only [dummySurveillanceAlerts, List.get] at h2
  exact absurd h2 (not_le.mpr this)

/-- C1 (amended): the outbreak-alert heuristic, modelled from the spec,
assigns critical exactly when the increase ratio is at least 2 and
warning exactly when it is at least 1.3 but below 2; for recent=156 and
baseline 45.2 the ratio is 390/113, which is within 1/100 of 3.45, and
the severity is critical.  (The hand-written demo fixtures do not all
satisfy this correspondence.) -/
theorem alert_severity_matches_ratio :
    (∀ (recent : Nat) (baseline : Rat),
      (alertSeverity recent baseline = some .critical ↔
        2 ≤ increaseRatio recent baseline) ∧
      (alertSeverity recent baseline = some .warning ↔
        13/10 ≤ increaseRatio recent baseline ∧
        increaseRatio recent baseline < 2)) ∧
    increaseRatio 156 (226/5) = 390/113 ∧
    |increaseRatio 156 (226/5) - 345/100| < 1/100 ∧
    alertSeverity 156 (226/5) = some .critical := by
  refine ⟨fun recent baseline => ⟨?_, ?_⟩, ?_, ?_, ?_⟩
  · unfold alertSeverity
    by_cases h1 : 2 ≤ increaseRatio recent baseline
    · rw [if_pos h1]
      exact ⟨fun _ => h1, fun _ => rfl⟩
    · rw [if_neg h1]
      by_cases h2 : 13/10 ≤ increaseRatio recent baseline
      · rw [if_pos h2]
        exact ⟨fun h => Severity.noConfusion (Option.some.inj h),
               fun h => absurd h h1⟩
      · rw [if_neg h2]
        exact ⟨fun h => Option.noConfusion h, fun h => absurd h h1⟩
  · unfold alertSeverity
    by_cases h1 : 2 ≤ increaseRatio recent baseline
    · rw [if_pos h1]
      exact ⟨fun h => Severity.noConfusion (Option.some.inj h),
             fun h => absurd h1 (not_le.mpr h.2)⟩
    · rw [if_neg h1]
      by_cases h2 : 13/10 ≤ increaseRatio recent baseline
      · rw [if_pos h2]
        exact ⟨fun _ => ⟨h2, not_le.mp h1⟩, fun _ => rfl⟩
      · rw [if_neg h2]
        exact ⟨fun h => Option.noConfusion h, fun h => absurd h.1 h2⟩
  · unfold increaseRatio; norm_num
  · unfold increaseRatio
    rw [abs_sub_lt_iff]
    norm_num
  · unfold alertSeverity increaseRatio
    norm_num

/-- C3: age-bucket assignment is a pure total function into the five
fixed buckets of the filter dropdown, each bucket having an inclusive
lower bound; in particular 16 maps to "0-17", 60 to "60+", 44 to
"30-44". -/
theorem age_bucket_assignment :
    (ageBucket 16 = "0-17" ∧ ageBucket 60 = "60+" ∧ ageBucket 44 = "30-44") ∧
    (∀ a : Nat, ageBucket a ∈ ageGroupOptions) ∧
    (∀ a : Nat, a ≤ 17 → ageBucket a = "0-17") ∧
    (∀ a : Nat, 18 ≤ a → a ≤ 29 → ageBucket a = "18-29") ∧
    (∀ a : Nat, 30 ≤ a → a ≤ 44 → ageBucket a = "30-44") ∧
    (∀ a : Nat, 45 ≤ a → a ≤ 59 → ageBucket a = "45-59") ∧
    (∀ a : Nat, 60 ≤ a → ageBucket a = "60+") := by
  refine ⟨⟨by decide, by decide, by decide⟩, ?_, ?_, ?_, ?_, ?_, ?_⟩ <;>
    intro a <;> unfold ageBucket
  · split_ifs <;> simp [ageGroupOptions]
  · intro h1; rw [if_pos h1]
  · intro h1 h2
    rw [if_neg (by omega), if_pos h2]
  · intro h1 h2
    rw [if_neg (by omega), if_neg (by omega), if_pos h2]
  · intro h1 h2
    rw [if_neg (by omega), if_neg (by omega), if_neg (by omega), if_pos h2]
  · intro h1
    rw [if_neg (by omega), if_neg (by omega), if_neg (by omega), if_neg (by omega)]

/-- Concrete instance of the age-bucket theorem: 20 lands in "18-29". -/
theorem age_bucket_assignment_witness :
    ageBucket 20 = "18-29" :=
  age_bucket_assignment.2.2.2.1 20 (by decide) (by decide)

/-- C2: for every batch file the result reports a processed count, a
failed count and a per-row error list; the counts partition the rows
(one malformed row never fails the whole batch), every malformed row
contributes its error message to the list, and a 10-row file with
exactly 2 malformed rows yields processed_count = 8 and
failed_count = 2. -/
theorem batch_processing_counts (rows : List RawRow) :
    (processBatch rows).processed_count + (processBatch rows).failed_count
        = rows.length ∧
    (processBatch rows).failed_count = (rows.filter rowMalformed).length ∧
    (processBatch rows).processed_count
        = (rows.filter (fun r => ! rowMalformed r)).length ∧
    (∀ j, (hj : j < rows.length) → rowMalformed (rows.get ⟨j, hj⟩) = true →
      rowError j (rows.get ⟨j, hj⟩) ∈ (processBatch rows).errors) ∧
    (rows.length = 10 → (rows.filter rowMalformed).length = 2 →
      (processBatch rows).processed_count = 8 ∧
      (processBatch rows).failed_count = 2) := by
  have hf := processBatchAux_failed 0 rows
  have hp := processBatchAux_processed 0 rows
  have hsplit := List.length_eq_length_filter_add (l := rows) rowMalformed
  unfold processBatch
  refine ⟨?_, hf, hp, ?_, ?_⟩
  · rw [hf, hp]
    omega
  · intro j hj hm
    simpa using processBatchAux_mem_errors 0 rows j hj hm
  · intro hlen hmal
    rw [hf, hp]
    exact ⟨by omega, hmal⟩

/-- A concrete 10-row batch file whose rows 3 and 7 lack the name
cell. -/
def sampleBatchRows : List RawRow :=
  [ ⟨"Ramesh Kumar", "45", "male", "Diabetes Mellitus Type 2,Hypertension"⟩,
    ⟨"Sunita Devi", "34", "female", "Dengue Fever"⟩,
    ⟨"Arjun Patel", "29", "male", "Influenza"⟩,
    ⟨"", "52", "female", "Typhoid"⟩,
    ⟨"Meena Shah", "61", "female", "COPD"⟩,
    ⟨"Vikram Singh", "40", "male", "Malaria"⟩,
    ⟨"Lakshmi Rao", "25", "female", "Urinary Tract Infection"⟩,
    ⟨"", "19", "male", "Chickenpox"⟩,
    ⟨"Kiran Nair", "55", "other", "Hypertension"⟩,
    ⟨"Asha Verma", "31", "female", "Acute Gastroenteritis"⟩ ]

/-- Concrete instance of the batch theorem: the sample 10-row file with
2 malformed rows reports 8 processed, 2 failed, and both malformed rows
appear in the error list. -/
theorem batch_processing_counts_witness :
    (processBatch sampleBatchRows).processed_count = 8 ∧
    (processBatch sampleBatchRows).failed_count = 2 ∧
    rowError 3 (sampleBatchRows.get ⟨3, by decide⟩)
        ∈ (processBatch sampleBatchRows).errors ∧
    rowError 7 (sampleBatchRows.get ⟨7, by decide⟩)
        ∈ (processBatch sampleBatchRows).errors :=
  ⟨((batch_processing_counts sampleBatchRows).2.2.2.2 (by decide) (by decide)).1,
   ((batch_processing_counts sampleBatchRows).2.2.2.2 (by decide) (by decide)).2,
   (batch_processing_counts sampleBatchRows).2.2.2.1 3 (by decide) (by decide),
   (batch_processing_counts sampleBatchRows).2.2.2.1 7 (by decide) (by decide)⟩

end HealthBridge

namespace HealthBridge

/-! ### Document processing lifecycle

`DocStatus` carries the four statuses of the frontend `STATUS_CONFIG`
table on the Documents page (pending, processing, completed, failed).
The processing itself happens in the backend, which is not among the
sources, so the transition relation is modelled from the spec. -/

inductive DocStatus where
  | pending
  | processing
  | completed
  | failed
deriving DecidableEq, Repr

/-- The `STATUS_CONFIG` keys of the Documents page. -/
def statusConfigKeys : List String :=
  ["pending", "processing", "completed", "failed"]

def statusKey : DocStatus → String
  | .pending => "pending"
  | .processing => "processing"
  | .completed => "completed"
  | .failed => "failed"

/-- Modelled from the spec: the lifecycle of a document's processing
status — a processing attempt moves pending to processing, which then
settles to completed or failed; no other transition exists. -/
inductive DocStep : DocStatus → DocStatus → Prop where
  | start : DocStep .pending .processing
  | complete : DocStep .processing .completed
  | fail : DocStep .processing .failed

/-- Progress rank of a status along the lifecycle. -/
def statusRank : DocStatus → Nat
  | .pending => 0
  | .processing => 1
  | .completed => 2
  | .failed => 2

/-- C4: the status only ever moves forward along
pending → processing → (completed or failed): every step strictly
increases the rank, completed and failed are terminal, and along any
reachable sequence of steps the rank never decreases. -/
theorem document_status_forward_only :
    (∀ s : DocStatus, statusKey s ∈ statusConfigKeys) ∧
    (∀ s t, DocStep s t → statusRank s < statusRank t) ∧
    (∀ t, ¬ DocStep .completed t) ∧
    (∀ t, ¬ DocStep .failed t) ∧
    (∀ s t, Relation.ReflTransGen DocStep s t → statusRank s ≤ statusRank t) := by
  refine ⟨?_, ?_, ?_, ?_, ?_⟩
  · intro s; cases s <;> simp [statusKey, statusConfigKeys]
  · intro s t h; cases h <;> decide
  · intro t h; cases h
  · intro t h; cases h
  · intro s t h
    induction h with
    | refl => exact le_refl _
    | tail _ hstep ih =>
      refine le_trans ih ?_
      cases hstep <;> decide

/-- Concrete instance of the lifecycle theorem: the run
pending → processing → completed never decreases the rank, and no step
leaves completed. -/
theorem document_status_forward_only_witness :
    statusRank .pending < statusRank .processing ∧
    ¬ DocStep .completed .pending ∧
    statusRank DocStatus.pending ≤ statusRank DocStatus.completed :=
  ⟨document_status_forward_only.2.1 _ _ DocStep.start,
   document_status_forward_only.2.2.1 _,
   document_status_forward_only.2.2.2.2 _ _
     (Relation.ReflTransGen.tail (Relation.ReflTransGen.single DocStep.start)
       DocStep.complete)⟩

end HealthBridge

namespace HealthBridge

/-! ### Field reconciliation

`PatientRec` translates the frontend `Patient` interface (optional
fields become `Option`, the `location` union becomes a sum type).  The
reconciliation of synonym fields is translated from the Patients page
table rendering: `phone || phone_number || '-'`, the string/object
location chain, `hospital || hospital_clinic || '-'`, and
`diseases || disease_list || []`.  JavaScript truthiness of a string is
non-emptiness; an array (even an empty one) is always truthy. -/

inductive Gender where
  | male
  | female
  | other
  | unknown
deriving DecidableEq, Repr

structure PatientLoc where
  address : Option String
  city : String
  state : String
  pincode : Option String
deriving DecidableEq, Repr

structure PatientRec where
  id : Nat ⊕ String
  name : String
  phone : Option String
  phone_number : Option String
  age : Option Nat
  gender : Option Gender
  diseases : Option (List String)
  disease_list : Option (List String)
  hospital : Option String
  hospital_clinic : Option String
  clinic : Option String
  address : Option String
  location : Option (String ⊕ PatientLoc)
  city : Option String
  state : Option String
  district : Option String
  pincode : Option String
  email : Option String
  doctor_name : Option String
  created_at : String
  updated_at : Option String
deriving DecidableEq, Repr

/-- JavaScript truthiness of an optional string: present and
non-empty. -/
def strTruthy : Option String → Bool
  | some s => !(s == "")
  | none => false

/-- The JavaScript `a || b` chain on an optional string with a string
fallback. -/
def jsOr : Option String → String → String
  | some s, b => if s = "" then b else s
  | none, b => b

/-- `patient.phone || patient.phone_number || '-'` (Patients page). -/
def reconcilePhone (p : PatientRec) : String :=
  jsOr p.phone (jsOr p.phone_number "-")

/-- The fallback part of the location chain:
`patient.address || (patient.city && patient.state ? city, state : null)
|| '-'`. -/
def locationFallback (p : PatientRec) : String :=
  if strTruthy p.address then p.address.getD ""
  else if strTruthy p.city && strTruthy p.state then
    p.city.getD "" ++ ", " ++ p.state.getD ""
  else "-"

/-- The Patients page location reconciliation: a string location is used
as is; an object location with truthy city and state becomes
"city, state"; otherwise the fallback chain applies. -/
def reconcileLocation (p : PatientRec) : String :=
  match p.location with
  | some (Sum.inl s) => s
  | some (Sum.inr loc) =>
    if !(loc.city == "") && !(loc.state == "") then
      loc.city ++ ", " ++ loc.state
    else locationFallback p
  | none => locationFallback p

/-- `patient.hospital || patient.hospital_clinic || '-'` (Patients
page). -/
def reconcileHospital (p : PatientRec) : String :=
  jsOr p.hospital (jsOr p.hospital_clinic "-")

/-- `patient.diseases || patient.disease_list || []` (Patients page);
arrays are truthy regardless of content. -/
def reconcileDiseases (p : PatientRec) : List String :=
  match p.diseases with
  | some l => l
  | none =>
    match p.disease_list with
    | some l => l
    | none => []

/-- The canonical Patient fields the claim is about. -/
structure CanonFields where
  phone : String
  location : String
  hospital : String
  diseases : List String
deriving DecidableEq, Repr

def reconcile (p : PatientRec) : CanonFields :=
  ⟨reconcilePhone p, reconcileLocation p, reconcileHospital p,
   reconcileDiseases p⟩

/-- Modelled from the spec: the backend normalizer (not among the
sources) persists the canonical shape, writing each reconciled value
into its canonical field and clearing the synonym fields. -/
def persistCanonical (p : PatientRec) : PatientRec :=
  { p with
    phone := some (reconcilePhone p)
    phone_number := none
    location := some (Sum.inl (reconcileLocation p))
    address := none
    city := none
    state := none
    hospital := some (reconcileHospital p)
    hospital_clinic := none
    diseases := some (reconcileDiseases p)
    disease_list := none }

theorem jsOr_ne_empty (o : Option String) (b : String) (hb : b ≠ "") :
    jsOr o b ≠ "" := by
  cases o with
  | none => simpa [jsOr] using hb
  | some s =>
    by_cases h : s = ""
    · simpa [jsOr, h] using hb
    · simp [jsOr, h]

theorem reconcilePhone_ne_empty (p : PatientRec) : reconcilePhone p ≠ "" :=
  jsOr_ne_empty _ _ (jsOr_ne_empty _ _ (by decide))

theorem reconcileHospital_ne_empty (p : PatientRec) :
    reconcileHospital p ≠ "" :=
  jsOr_ne_empty _ _ (jsOr_ne_empty _ _ (by decide))

theorem reconcilePhone_persist (p : PatientRec) :
    reconcilePhone (persistCanonical p) = reconcilePhone p := by
  show jsOr (some (reconcilePhone p)) (jsOr none "-") = reconcilePhone p
  simp [jsOr, reconcilePhone_ne_empty p]

theorem reconcileLocation_persist (p : PatientRec) :
    reconcileLocation (persistCanonical p) = reconcileLocation p := rfl

theorem reconcileHospital_persist (p : PatientRec) :
    reconcileHospital (persistCanonical p) = reconcileHospital p := by
  show jsOr (some (reconcileHospital p)) (jsOr none "-") = reconcileHospital p
  simp [jsOr, reconcileHospital_ne_empty p]

theorem reconcileDiseases_persist (p : PatientRec) :
    reconcileDiseases (persistCanonical p) = reconcileDiseases p := rfl

/-- C6: field reconciliation is idempotent — persisting the canonical
shape and reconciling again yields exactly the same canonical fields
(phone, location display string, hospital, diseases), and persisting
twice equals persisting once. -/
theorem reconciliation_idempotent (p : PatientRec) :
    reconcile (persistCanonical p) = reconcile p ∧
    persistCanonical (persistCanonical p) = persistCanonical p := by
  constructor
  · unfold reconcile
    rw [reconcilePhone_persist, reconcileLocation_persist,
        reconcileHospital_persist, reconcileDiseases_persist]
  · show ({ persistCanonical p with
        phone := some (reconcilePhone (persistCanonical p))
        phone_number := none
        location := some (Sum.inl (reconcileLocation (persistCanonical p)))
        address := none
        city := none
        state := none
        hospital := some (reconcileHospital (persistCanonical p))
        hospital_clinic := none
        diseases := some (reconcileDiseases (persistCanonical p))
        disease_list := none } : PatientRec) = persistCanonical p
    rw [reconcilePhone_persist, reconcileLocation_persist,
        reconcileHospital_persist, reconcileDiseases_persist]
    rfl

end HealthBridge

namespace HealthBridge

/-! ### Input dispatch and upload validation

`strEndsWith` models the JavaScript `String.prototype.endsWith` via the
character list.  `isBatchFile` and the routing of `processFiles` are
translated from the processing Upload page; the two dropzone accept
configurations are translated from the processing Upload page and the
legacy Upload page respectively.  The extraction path behind each
backend endpoint is modelled from the spec. -/

def strEndsWith (s e : String) : Bool :=
  e.data.isSuffixOf s.data

inductive TabType where
  | file
  | text
  | batch
deriving DecidableEq, Repr

inductive Endpoint where
  | processBatchRoute
  | processDocumentRoute
  | processTextRoute
deriving DecidableEq, Repr

/-- `fileItem.file.name.endsWith('.csv') ||
fileItem.file.name.endsWith('.json')` (processing Upload page). -/
def isBatchFile (name : String) : Bool :=
  strEndsWith name ".csv" || strEndsWith name ".json"

/-- The dispatch of `processFiles`: a batch file, or any file on the
batch tab, goes to the batch endpoint; everything else goes to the
document endpoint. -/
def routeFile (tab : TabType) (name : String) : Endpoint :=
  if isBatchFile name = true ∨ tab = TabType.batch then .processBatchRoute
  else .processDocumentRoute

inductive ExtractionPath where
  | batchRowParsing
  | ocrExtractor
  | llmExtraction
deriving DecidableEq, Repr

/-- Modelled from the spec: the extraction path behind each backend
endpoint (the backend is not among the sources) — the batch endpoint
parses rows, the document endpoint calls the OCR extractor on the
image/PDF bytes, the text endpoint calls the direct LLM-style
extraction. -/
def endpointPath : Endpoint → ExtractionPath
  | .processBatchRoute => .batchRowParsing
  | .processDocumentRoute => .ocrExtractor
  | .processTextRoute => .llmExtraction

/-- One input unit: a dropped file processed on some tab, or clinical
text submitted from the text tab (which calls the text endpoint). -/
inductive InputUnit where
  | fileInput (tab : TabType) (name : String)
  | textInput (text : String)

def routeInput : InputUnit → ExtractionPath
  | .fileInput tab name => endpointPath (routeFile tab name)
  | .textInput _ => endpointPath Endpoint.processTextRoute

theorem strEndsWith_excl {s e1 e2 : String}
    (h1 : strEndsWith s e1 = true)
    (hcmp : (e1.data.isSuffixOf e2.data || e2.data.isSuffixOf e1.data) = false) :
    strEndsWith s e2 = false := by
  cases hb : strEndsWith s e2 with
  | false => rfl
  | true =>
    exfalso
    have hs1 : e1.data <:+ s.data := List.isSuffixOf_iff_suffix.mp h1
    have hs2 : e2.data <:+ s.data := List.isSuffixOf_iff_suffix.mp hb
    rcases List.suffix_or_suffix_of_suffix hs1 hs2 with h | h
    · have : e1.data.isSuffixOf e2.data = true := List.isSuffixOf_iff_suffix.mpr h
      simp [this] at hcmp
    · have : e2.data.isSuffixOf e1.data = true := List.isSuffixOf_iff_suffix.mpr h
      simp [this] at hcmp

/-! ### Dropzone accept configurations -/

structure UploadFile where
  name : String
  size : Nat
deriving DecidableEq, Repr

/-- `maxSize: 10 * 1024 * 1024` in both dropzones. -/
def maxUploadSize : Nat := 10 * 1024 * 1024

def hasExt (name : String) (exts : List String) : Bool :=
  exts.any (fun e => strEndsWith name e)

/-- The legacy Upload page accept set:
pdf plus png/jpg/jpeg images. -/
def legacyAcceptExts : List String :=
  [".pdf", ".png", ".jpg", ".jpeg"]

def legacyDropzoneAccepts (f : UploadFile) : Bool :=
  hasExt f.name legacyAcceptExts && decide (f.size ≤ maxUploadSize)

/-- The processing Upload page accept set: on the batch tab only
csv/json, otherwise pdf, the png/jpg/jpeg/webp images, and csv/json. -/
def processingAcceptExts : TabType → List String
  | .batch => [".csv", ".json"]
  | _ => [".pdf", ".png", ".jpg", ".jpeg", ".webp", ".csv", ".json"]

def processingDropzoneAccepts (tab : TabType) (f : UploadFile) : Bool :=
  hasExt f.name (processingAcceptExts tab) && decide (f.size ≤ maxUploadSize)

/-- The accept set asserted by the claim for single documents: exactly
PDF, PNG and JPG, plus CSV/JSON for batch. -/
def claimedAcceptExts : List String :=
  [".pdf", ".png", ".jpg", ".csv", ".json"]

end HealthBridge

namespace HealthBridge

/-! ### Diseases as a distinct-value index over patients

The stored `Disease` rows (frontend `Disease` interface: name and
patient_count) are, per the spec, a derived index over the disease lists
of the stored patients.  The persistence layer is backend code not among
the sources, so states and operations are modelled from the spec. -/

/-- Modelled from the spec: the stored part of a Patient relevant to the
disease index — its id and its list of disease names. -/
structure ModelPatient where
  id : Nat
  diseases : List String
deriving DecidableEq, Repr

/-- One stored Disease row (frontend `Disease` interface, restricted to
the fields the claim is about). -/
structure DiseaseRow where
  name : String
  patient_count : Nat
deriving DecidableEq, Repr

/-- Number of patient records whose disease list contains `n`. -/
def patientsListing (ps : List ModelPatient) (n : String) : Nat :=
  (ps.filter (fun p => p.diseases.contains n)).length

/-- The distinct disease names occurring across the stored patients. -/
def diseaseNames (ps : List ModelPatient) : List String :=
  ((ps.map ModelPatient.diseases).flatten).dedup

/-- Modelled from the spec: the Disease table as the distinct-value
index over `Patient.diseases`, with the derived patient counts. -/
def diseasesOf (ps : List ModelPatient) : List DiseaseRow :=
  (diseaseNames ps).map (fun n => ⟨n, patientsListing ps n⟩)

/-- Modelled from the spec: the operations that change the patient
store — creating a patient, processing a document (which may create
several patients), and explicit deletion. -/
inductive PatientOp where
  | create (p : ModelPatient)
  | processDocument (drafts : List ModelPatient)
  | delete (id : Nat)

def applyOp (ps : List ModelPatient) : PatientOp → List ModelPatient
  | .create p => p :: ps
  | .processDocument ds => ds ++ ps
  | .delete i => ps.filter (fun p => p.id != i)

def applyOps (ops : List PatientOp) : List ModelPatient :=
  ops.foldl applyOp []

/-- C5: in every state reachable by creating, processing and deleting
patients, every Disease row's patient_count equals the number of
patient records whose disease list contains its name, the rows carry
pairwise distinct names, and a name has a row exactly when some stored
patient lists it. -/
theorem disease_patient_count_invariant (ops : List PatientOp) :
    (∀ d ∈ diseasesOf (applyOps ops),
      d.patient_count =
        ((applyOps ops).filter (fun p => p.diseases.contains d.name)).length) ∧
    ((diseasesOf (applyOps ops)).map DiseaseRow.name).Nodup ∧
    (∀ n : String,
      (∃ d ∈ diseasesOf (applyOps ops), d.name = n) ↔
      ∃ p ∈ applyOps ops, n ∈ p.diseases) := by
  set ps := applyOps ops
  refine ⟨?_, ?_, ?_⟩
  · intro d hd
    obtain ⟨n, -, rfl⟩ := List.mem_map.mp hd
    rfl
  · have hmapname : (diseasesOf ps).map DiseaseRow.name = diseaseNames ps := by
      simp only [diseasesOf, List.map_map]
      have hfun : (DiseaseRow.name ∘ fun n => (⟨n, patientsListing ps n⟩ : DiseaseRow))
          = id := rfl
      rw [hfun, List.map_id]
    rw [hmapname]
    exact List.nodup_dedup _
  · intro n
    constructor
    · rintro ⟨d, hd, rfl⟩
      obtain ⟨m, hm, rfl⟩ := List.mem_map.mp hd
      have := List.mem_dedup.mp hm
      obtain ⟨l, hl, hnl⟩ := List.mem_flatten.mp this
      obtain ⟨p, hp, rfl⟩ := List.mem_map.mp hl
      exact ⟨p, hp, hnl⟩
    · rintro ⟨p, hp, hnp⟩
      refine ⟨⟨n, patientsListing ps n⟩, ?_, rfl⟩
      refine List.mem_map.mpr ⟨n, ?_, rfl⟩
      refine List.mem_dedup.mpr (List.mem_flatten.mpr ⟨p.diseases, ?_, hnp⟩)
      exact List.mem_map.mpr ⟨p, hp, rfl⟩

/-- Concrete instance of the disease-index invariant: after creating two
patients and deleting one, the Dengue Fever row counts exactly the one
remaining patient listing it. -/
theorem disease_patient_count_invariant_witness :
    (⟨"Dengue Fever", 1⟩ : DiseaseRow).patient_count =
      ((applyOps [.create ⟨1, ["Dengue Fever", "Hypertension"]⟩,
                  .create ⟨2, ["Dengue Fever"]⟩,
                  .delete 1]).filter
        (fun p => p.diseases.contains
          (⟨"Dengue Fever", 1⟩ : DiseaseRow).name)).length :=
  (disease_patient_count_invariant
    [.create ⟨1, ["Dengue Fever", "Hypertension"]⟩,
     .create ⟨2, ["Dengue Fever"]⟩,
     .delete 1]).1 ⟨"Dengue Fever", 1⟩ (by decide)

end HealthBridge

namespace HealthBridge

/-- C7: dispatch is decided by the file extension — a name ending in
.csv or .json is routed to batch-row parsing on any tab, a PDF or image
file on the file tab is routed to the OCR extractor, and clinical text
goes to the direct LLM-style extraction. -/
theorem dispatch_by_extension :
    (∀ (tab : TabType) (name : String),
      strEndsWith name ".csv" = true ∨ strEndsWith name ".json" = true →
      routeInput (.fileInput tab name) = .batchRowParsing) ∧
    (∀ name : String,
      (strEndsWith name ".pdf" = true ∨ strEndsWith name ".png" = true ∨
       strEndsWith name ".jpg" = true ∨ strEndsWith name ".jpeg" = true ∨
       strEndsWith name ".webp" = true) →
      routeInput (.fileInput .file name) = .ocrExtractor) ∧
    (∀ t : String, routeInput (.textInput t) = .llmExtraction) := by
  refine ⟨?_, ?_, ?_⟩
  · intro tab name h
    have hb : isBatchFile name = true := by
      unfold isBatchFile
      rcases h with h | h <;> simp [h]
    simp [routeInput, routeFile, hb, endpointPath]
  · intro name h
    have hcsv : strEndsWith name ".csv" = false := by
      rcases h with h | h | h | h | h <;> exact strEndsWith_excl h (by decide)
    have hjson : strEndsWith name ".json" = false := by
      rcases h with h | h | h | h | h <;> exact strEndsWith_excl h (by decide)
    have hb : isBatchFile name = false := by
      unfold isBatchFile
      rw [hcsv, hjson]
      rfl
    simp [routeInput, routeFile, hb, endpointPath]
  · intro t
    rfl

/-- Concrete instance of the dispatch theorem: a csv goes to batch-row
parsing, a pdf to OCR, text to LLM extraction. -/
theorem dispatch_by_extension_witness :
    routeInput (.fileInput .file "records.csv") = .batchRowParsing ∧
    routeInput (.fileInput .file "scan.pdf") = .ocrExtractor ∧
    routeInput (.textInput "Patient: Ramesh Kumar, 45/M") = .llmExtraction :=
  ⟨dispatch_by_extension.1 .file "records.csv" (Or.inl (by decide)),
   dispatch_by_extension.2.1 "scan.pdf" (Or.inl (by decide)),
   dispatch_by_extension.2.2 _⟩

/-- C8: the claim as stated is false of the sources: the processing
Upload page's dropzone also accepts .webp image files on the file tab
— a 100-byte scan.webp is accepted although its extension is outside
PDF/PNG/JPG plus CSV/JSON. -/
theorem webp_accepted_outside_claimed_set :
    processingDropzoneAccepts TabType.file ⟨"scan.webp", 100⟩ = true ∧
    hasExt "scan.webp" claimedAcceptExts = false := by
  constructor <;> decide

/-- C8 (amended): each dropzone accepts exactly its configured
extension set at up to 10 MB — the legacy page exactly PDF/PNG/JPG
(and .jpeg), the processing page additionally WEBP and CSV/JSON on the
file tab and only CSV/JSON on the batch tab — and every file exceeding
10 MB or outside the page's set is rejected immediately by the
dropzone. -/
theorem upload_validation (f : UploadFile) :
    (legacyDropzoneAccepts f = true ↔
      hasExt f.name legacyAcceptExts = true ∧ f.size ≤ maxUploadSize) ∧
    (processingDropzoneAccepts TabType.file f = true ↔
      hasExt f.name [".pdf", ".png", ".jpg", ".jpeg", ".webp", ".csv", ".json"]
          = true ∧
      f.size ≤ maxUploadSize) ∧
    (processingDropzoneAccepts TabType.batch f = true ↔
      hasExt f.name [".csv", ".json"] = true ∧ f.size ≤ maxUploadSize) ∧
    (maxUploadSize < f.size →
      legacyDropzoneAccepts f = false ∧
      ∀ tab, processingDropzoneAccepts tab f = false) := by
  refine ⟨?_, ?_, ?_, ?_⟩
  · unfold legacyDropzoneAccepts
    simp [Bool.and_eq_true]
  · unfold processingDropzoneAccepts processingAcceptExts
    simp [Bool.and_eq_true]
  · unfold processingDropzoneAccepts processingAcceptExts
    simp [Bool.and_eq_true]
  · intro hover
    have hsz : decide (f.size ≤ maxUploadSize) = false := by
      simp [Nat.not_le.mpr hover]
    constructor
    · unfold legacyDropzoneAccepts
      rw [hsz, Bool.and_false]
    · intro tab
      unfold processingDropzoneAccepts
      rw [hsz, Bool.and_false]

/-- Concrete instance of the validation theorem: a small pdf is
accepted by both pages, while an 11 MB pdf is rejected everywhere. -/
theorem upload_validation_witness :
    legacyDropzoneAccepts ⟨"report.pdf", 1000⟩ = true ∧
    legacyDropzoneAccepts ⟨"report.pdf", 11534336⟩ = false :=
  ⟨(upload_validation ⟨"report.pdf", 1000⟩).1.mpr ⟨by decide, by decide⟩,
   ((upload_validation ⟨"report.pdf", 11534336⟩).2.2.2 (by decide)).1⟩

end HealthBridge

namespace HealthBridge

/-! ### The "process all pending" bulk action

The bulk action is a backend endpoint (the Documents page only triggers
it and reports `response.data.processed`), so it is modelled from the
spec: a sequential walk over the documents that processes only the
pending ones, the extractor outcome abstracted by an oracle on the
document id, aggregating a success count. -/

structure ModelDoc where
  id : Nat
  file_name : String
  status : DocStatus
  error_message : Option String
deriving DecidableEq, Repr

/-- Modelled from the spec: one processing attempt — only a pending
document is touched; the collaborator outcome (`oracle`) decides
completed or failed. -/
def processDoc (oracle : Nat → Bool) (d : ModelDoc) : ModelDoc :=
  if d.status = DocStatus.pending then
    if oracle d.id then { d with status := .completed }
    else { d with status := .failed, error_message := some "Processing failed" }
  else d

/-- Modelled from the spec: the bulk action iterates the documents
sequentially, processing the pending ones and counting the
successes. -/
def processAllPending (oracle : Nat → Bool) : List ModelDoc → List ModelDoc × Nat
  | [] => ([], 0)
  | d :: rest =>
    let r := processAllPending oracle rest
    if d.status = DocStatus.pending then
      let d' := processDoc oracle d
      (d' :: r.1, r.2 + if d'.status = DocStatus.completed then 1 else 0)
    else (d :: r.1, r.2)

theorem processAllPending_docs (oracle : Nat → Bool) (docs : List ModelDoc) :
    (processAllPending oracle docs).1 = docs.map (processDoc oracle) := by
  induction docs with
  | nil => rfl
  | cons d rest ih =>
    by_cases h : d.status = DocStatus.pending
    · simp [processAllPending, h, ih]
    · simp [processAllPending, processDoc, h, ih]

theorem processAllPending_count (oracle : Nat → Bool) (docs : List ModelDoc) :
    (processAllPending oracle docs).2 =
      (docs.filter (fun d => d.status == DocStatus.pending && oracle d.id)).length := by
  induction docs with
  | nil => rfl
  | cons d rest ih =>
    by_cases h : d.status = DocStatus.pending
    · by_cases ho : oracle d.id
      · simp [processAllPending, processDoc, h, ho, List.filter, ih]
      · simp [processAllPending, processDoc, h, ho, List.filter, ih]
    · have hb : (d.status == DocStatus.pending) = false := by
        simp [h]
      simp [processAllPending, h, List.filter, hb, ih]

theorem pending_and_oracle_le_pending (oracle : Nat → Bool)
    (docs : List ModelDoc) :
    (docs.filter (fun d => d.status == DocStatus.pending && oracle d.id)).length ≤
      (docs.filter (fun d => d.status == DocStatus.pending)).length := by
  induction docs with
  | nil => exact le_refl 0
  | cons d rest ih =>
    by_cases h1 : d.status = DocStatus.pending
    · by_cases h2 : oracle d.id
      · simp only [List.filter, h1, h2, beq_self_eq_true, Bool.and_true]
        exact Nat.succ_le_succ ih
      · simp only [List.filter, h1, h2, beq_self_eq_true, Bool.and_false]
        exact Nat.le_succ_of_le ih
    · have hb : (d.status == DocStatus.pending) = false := by
        simp [h1]
      simp only [List.filter, hb, Bool.false_and]
      exact ih

end HealthBridge

namespace HealthBridge

/-- C9: the bulk action preserves length, leaves every document already
completed entirely unchanged (at its position), and reports a count
that covers only pending documents — equal to the number of pending
documents whose processing succeeded, hence at most the number of
pending documents. -/
theorem process_all_pending_frame (oracle : Nat → Bool) (docs : List ModelDoc) :
    (processAllPending oracle docs).1.length = docs.length ∧
    (∀ (i : Nat) (d : ModelDoc),
      docs[i]? = some d → d.status = DocStatus.completed →
      (processAllPending oracle docs).1[i]? = some d) ∧
    (processAllPending oracle docs).2 =
      (docs.filter (fun d => d.status == DocStatus.pending && oracle d.id)).length ∧
    (processAllPending oracle docs).2 ≤
      (docs.filter (fun d => d.status == DocStatus.pending)).length := by
  refine ⟨?_, ?_, processAllPending_count oracle docs, ?_⟩
  · rw [processAllPending_docs]
    exact List.length_map _ _
  · intro i d hd hc
    rw [processAllPending_docs, List.getElem?_map, hd]
    have : processDoc oracle d = d := by
      unfold processDoc
      rw [hc]
      rfl
    rw [Option.map_some', this]
  · rw [processAllPending_count]
    exact pending_and_oracle_le_pending oracle docs

/-- Concrete instance of the bulk-action theorem: with one completed and
one pending document, the completed one is untouched and the count
is 1. -/
theorem process_all_pending_frame_witness :
    (processAllPending (fun _ => true)
      [⟨1, "a.pdf", DocStatus.completed, none⟩,
       ⟨2, "b.pdf", DocStatus.pending, none⟩]).1[0]? =
      some ⟨1, "a.pdf", DocStatus.completed, none⟩ ∧
    (processAllPending (fun _ => true)
      [⟨1, "a.pdf", DocStatus.completed, none⟩,
       ⟨2, "b.pdf", DocStatus.pending, none⟩]).2 =
      ([⟨1, "a.pdf", DocStatus.completed, none⟩,
        ⟨2, "b.pdf", DocStatus.pending, none⟩].filter
        (fun d : ModelDoc => d.status == DocStatus.pending && true)).length :=
  ⟨(process_all_pending_frame (fun _ => true)
      [⟨1, "a.pdf", DocStatus.completed, none⟩,
       ⟨2, "b.pdf", DocStatus.pending, none⟩]).2.1 0
      ⟨1, "a.pdf", DocStatus.completed, none⟩ rfl rfl,
   (process_all_pending_frame (fun _ => true)
      [⟨1, "a.pdf", DocStatus.completed, none⟩,
       ⟨2, "b.pdf", DocStatus.pending, none⟩]).2.2.1⟩

end HealthBridge

namespace HealthBridge

/-! ### Patient-list pagination

Translated from the Patients page: the page size is fixed at 20
(`Math.ceil((patientsData?.count || 0) / 20)`); the previous-page
button runs `setPage(p => Math.max(1, p - 1))` and is disabled when
`page === 1`; the next-page button runs
`setPage(p => Math.min(totalPages, p + 1))` and is disabled when
`page === totalPages`; the whole control block is rendered only when
`totalPages > 1`.  The page state starts at 1. -/

def pageSize : Nat := 20

def totalPages (count : Nat) : Nat :=
  (count + (pageSize - 1)) / pageSize

def prevPage (p : Nat) : Nat := max 1 (p - 1)

def nextPage (tp p : Nat) : Nat := min tp (p + 1)

/-- One click of the previous-page button: it only fires when the
controls are rendered (totalPages > 1) and the button is enabled
(page ≠ 1). -/
def clickPrev (tp p : Nat) : Nat :=
  if 1 < tp ∧ p ≠ 1 then prevPage p else p

/-- One click of the next-page button: it only fires when the controls
are rendered (totalPages > 1) and the button is enabled
(page ≠ totalPages). -/
def clickNext (tp p : Nat) : Nat :=
  if 1 < tp ∧ p ≠ tp then nextPage tp p else p

inductive PageAction where
  | prev
  | next
deriving DecidableEq, Repr

def applyAction (tp p : Nat) : PageAction → Nat
  | .prev => clickPrev tp p
  | .next => clickNext tp p

/-- The page reached from the initial page 1 after a sequence of
clicks. -/
def runActions (tp : Nat) (acts : List PageAction) : Nat :=
  acts.foldl (applyAction tp) 1

theorem clickPrev_bounds (tp p : Nat) (h1 : 1 ≤ p) (h2 : p ≤ tp) :
    1 ≤ clickPrev tp p ∧ clickPrev tp p ≤ tp := by
  unfold clickPrev prevPage
  split_ifs with h <;> omega

theorem clickNext_bounds (tp p : Nat) (h1 : 1 ≤ p) (h2 : p ≤ tp) :
    1 ≤ clickNext tp p ∧ clickNext tp p ≤ tp := by
  unfold clickNext nextPage
  split_ifs with h <;> omega

theorem foldl_actions_bounds (tp : Nat) (acts : List PageAction) :
    ∀ p : Nat, 1 ≤ p → p ≤ tp →
      1 ≤ acts.foldl (applyAction tp) p ∧ acts.foldl (applyAction tp) p ≤ tp := by
  induction acts with
  | nil => exact fun p h1 h2 => ⟨h1, h2⟩
  | cons a rest ih =>
    intro p h1 h2
    rw [List.foldl_cons]
    cases a with
    | prev =>
      obtain ⟨g1, g2⟩ := clickPrev_bounds tp p h1 h2
      exact ih (clickPrev tp p) g1 g2
    | next =>
      obtain ⟨g1, g2⟩ := clickNext_bounds tp p h1 h2
      exact ih (clickNext tp p) g1 g2

end HealthBridge

namespace HealthBridge

/-- C10: the patient list paginates with page size 20 — totalPages is
the ceiling of count / 20 (the least number of 20-patient pages covering
the count); the previous-page action takes max(1, page-1) and is a
no-op at page 1, the next-page action takes min(totalPages, page+1) and
is a no-op at page totalPages; and starting from page 1, any sequence
of clicks keeps the page within [1, totalPages] whenever totalPages is
at least 1. -/
theorem pagination_bounds :
    (∀ c : Nat, c ≤ pageSize * totalPages c ∧
      (0 < c → pageSize * (totalPages c - 1) < c)) ∧
    (∀ tp p : Nat, clickPrev tp 1 = 1 ∧ prevPage p = max 1 (p - 1)) ∧
    (∀ tp p : Nat, clickNext tp tp = tp ∧ nextPage tp p = min tp (p + 1)) ∧
    (∀ tp : Nat, ∀ acts : List PageAction, 1 ≤ tp →
      1 ≤ runActions tp acts ∧ runActions tp acts ≤ tp) := by
  refine ⟨?_, ?_, ?_, ?_⟩
  · intro c
    unfold totalPages pageSize
    have hdm := Nat.div_add_mod (c + 19) 20
    have hlt : (c + 19) % 20 < 20 := Nat.mod_lt _ (by omega)
    omega
  · intro tp p
    refine ⟨?_, rfl⟩
    unfold clickPrev
    rw [if_neg]
    simp
  · intro tp p
    refine ⟨?_, rfl⟩
    unfold clickNext
    rw [if_neg]
    simp
  · intro tp acts h
    exact foldl_actions_bounds tp acts 1 (le_refl 1) h

/-- Concrete instance of the pagination theorem: 41 patients make 3
pages, clicking next twice then prev once from page 1 stays within
[1, 3]. -/
theorem pagination_bounds_witness :
    41 ≤ pageSize * totalPages 41 ∧
    pageSize * (totalPages 41 - 1) < 41 ∧
    1 ≤ runActions 3 [.next, .next, .prev] ∧
    runActions 3 [.next, .next, .prev] ≤ 3 :=
  ⟨(pagination_bounds.1 41).1,
   (pagination_bounds.1 41).2 (by decide),
   (pagination_bounds.2.2.2 3 [.next, .next, .prev] (by decide)).1,
   (pagination_bounds.2.2.2 3 [.next, .next, .prev] (by decide)).2⟩

end HealthBridge
